import Mathlib

/-!
Verification of the settings lifecycle of the habitica-md Obsidian plugin
(src/src/main.ts), against its natural-language specification.

The persisted data and the in-memory settings are JavaScript objects; we
embed them as association lists of string keys to string values, with
lookup taking the first matching entry.  The merge in loadSettings is
JavaScript Object.assign with a fresh target, and field edits in the
settings tab are JavaScript property assignments; both are embedded
faithfully below.
-/

set_option autoImplicit false

namespace HabiticaMd

/-- A JavaScript object, as JSON-persisted by the host: an ordered list of
string key / string value pairs. -/
abbrev Jobj : Type := List (String × String)

/-- Property read on a JavaScript object: the value at the first entry whose
key matches, if any. -/
def jget : Jobj → String → Option String
  | [], _ => none
  | p :: s, k => if p.1 = k then some p.2 else jget s k

/-- Property assignment on a JavaScript object (the statement
this.plugin.settings.apiToken = value in the onChange handlers): if the key
is present its value is overwritten in place, otherwise the key is appended. -/
def jset (s : Jobj) (k v : String) : Jobj :=
  if (jget s k).isSome then
    s.map (fun p => if p.1 = k then (p.1, v) else p)
  else
    s ++ [(k, v)]

/-- JavaScript Object.assign on a fresh target with two sources
(Object.assign with empty-object target, d, r): keys of d come first with
r's value winning when r also has the key, followed by the keys of r that d
lacks, in r's order. -/
def objAssign (d r : Jobj) : Jobj :=
  d.map (fun p => (p.1, (jget r p.1).getD p.2)) ++
    r.filter (fun p => (jget d p.1).isNone)

/-- The typed settings record of the source (interface HabiticaPluginSettings):
two string fields, apiToken and userId. -/
structure HabiticaPluginSettings where
  apiToken : String
  userId : String
deriving DecidableEq

/-- The DEFAULT_SETTINGS object of the source (main.ts lines 23-26), as the
JavaScript object it is at runtime. -/
def DEFAULT_SETTINGS : Jobj := [("apiToken", ""), ("userId", "")]

/-- The typed view of a settings object: the two declared fields as read
through the HabiticaPluginSettings interface. -/
def settingsView (s : Jobj) : HabiticaPluginSettings :=
  ⟨(jget s "apiToken").getD "", (jget s "userId").getD ""⟩

/-- The only failure kind of the core: the storage backend cannot complete a
read or write (the spec's StorageFailure). The payload is the host's error
message. -/
inductive StorageFailure where
  | ioFailure : String → StorageFailure
deriving DecidableEq

/-- The state visible to the plugin: the DEFAULT_SETTINGS object (tracked
explicitly so that its immutability is a theorem, not an assumption), the
in-memory settings object (this.settings), and the host-persisted data
(what loadData returns: none on first run, when no data file exists). -/
structure SysState where
  defaults : Jobj
  settings : Jobj
  storage : Option Jobj
deriving DecidableEq

/-- loadData(): the host returns the persisted mapping, or nothing when no
prior data exists. -/
def loadData (σ : SysState) : Option Jobj :=
  σ.storage

/-- loadSettings() (main.ts lines 82-84):
this.settings = Object.assign({}, DEFAULT_SETTINGS, await this.loadData()).
The target of Object.assign is a fresh object, so the defaults object is not
written to; a null result from loadData contributes no keys, exactly like an
empty source object. -/
def loadSettings (σ : SysState) : SysState :=
  { σ with settings := objAssign σ.defaults ((loadData σ).getD []) }

/-- saveData(settings): the host writes the given object wholesale as the new
persisted data, or fails; a backend failure (modelled by the be argument)
leaves the persisted data unchanged and is returned to the caller. -/
def saveData (be : Option StorageFailure) (σ : SysState) (o : Jobj) :
    SysState × Except StorageFailure Unit :=
  match be with
  | some e => (σ, Except.error e)
  | none => ({ σ with storage := some o }, Except.ok ())

/-- saveSettings() (main.ts lines 86-88): await this.saveData(this.settings).
There is no catch: the backend's outcome is returned as is. -/
def saveSettings (be : Option StorageFailure) (σ : SysState) :
    SysState × Except StorageFailure Unit :=
  saveData be σ σ.settings

/-- The two settings fields the settings tab edits. -/
inductive SField where
  | apiToken
  | userId
deriving DecidableEq

/-- The JavaScript property name of each field. -/
def fieldKey : SField → String
  | SField.apiToken => "apiToken"
  | SField.userId => "userId"

/-- The first statement of an onChange handler (main.ts lines 145-148 and
156-159): this.plugin.settings.<field> = value. In-memory only. -/
def setField (f : SField) (v : String) (σ : SysState) : SysState :=
  { σ with settings := jset σ.settings (fieldKey f) v }

/-- A complete onChange handler: assign the field, then await saveSettings
with the backend outcome be. -/
def onChange (be : Option StorageFailure) (f : SField) (v : String)
    (σ : SysState) : SysState × Except StorageFailure Unit :=
  saveSettings be (setField f v σ)

/-- A sequence of in-memory field updates, applied left to right. -/
def applyUpdates (us : List (SField × String)) (σ : SysState) : SysState :=
  us.foldl (fun σ u => setField u.1 u.2 σ) σ

/-- The last value written to a field by a sequence of updates, if any. -/
def lastWritten (us : List (SField × String)) (f : SField) : Option String :=
  us.foldl (fun acc u => if u.1 = f then some u.2 else acc) none

/-- The ribbon-icon callback (main.ts lines 55-58): it creates one Notice
with the text shown and does nothing else; the returned list is the
notifications it emits. -/
def ribbonClick (σ : SysState) : SysState × List String :=
  (σ, ["Syncing with Habitica..."])

/-- The observable startup events of onload, in order. -/
inductive Event where
  | loadCompleted
  | settingTabRegistered
  | ribbonRegistered
deriving DecidableEq

/-- onload() (main.ts lines 48-59): await this.loadSettings();
this.addSettingTab(...); this.addRibbonIcon(...). The await completes the
load before the two registrations run, which the returned event trace
records in program order. -/
def onload (σ : SysState) : SysState × List Event :=
  let σ1 := loadSettings σ
  (σ1, [Event.loadCompleted, Event.settingTabRegistered,
        Event.ribbonRegistered])

/-- Every operation a user-driven session can perform on the plugin state:
a (re)load, an onChange edit with a succeeding or failing persist, and a
ribbon click. -/
inductive Op where
  | load
  | change : SField → String → Op
  | changeFail : StorageFailure → SField → String → Op
  | ribbon

/-- One operation's effect on the state. -/
def stepOp (σ : SysState) (o : Op) : SysState :=
  match o with
  | Op.load => loadSettings σ
  | Op.change f v => (onChange none f v σ).1
  | Op.changeFail e f v => (onChange (some e) f v σ).1
  | Op.ribbon => (ribbonClick σ).1

/-- A whole session: the operations applied in order. -/
def runOps (ops : List Op) (σ : SysState) : SysState :=
  ops.foldl stepOp σ

/-! Basic lookup lemmas for the JavaScript-object embedding. -/

theorem jget_nil (k : String) : jget [] k = none := rfl

theorem jget_cons (a : String × String) (s : Jobj) (k : String) :
    jget (a :: s) k = if a.1 = k then some a.2 else jget s k := rfl

theorem jget_append (s t : Jobj) (k : String) :
    jget (s ++ t) k = match jget s k with
      | some v => some v
      | none => jget t k := by
  induction s with
  | nil => rfl
  | cons a s ih =>
    by_cases h : a.1 = k
    · simp [jget_cons, h]
    · simp [jget_cons, h, ih]

theorem jget_map_merge (d r : Jobj) (k : String) :
    jget (d.map (fun p => (p.1, (jget r p.1).getD p.2))) k
      = (jget d k).map (fun v => (jget r k).getD v) := by
  induction d with
  | nil => rfl
  | cons a d ih =>
    by_cases h : a.1 = k
    · subst h
      simp [jget_cons]
    · simp [jget_cons, h, ih]

theorem jget_filter_isNone (d r : Jobj) (k : String) :
    jget (r.filter (fun p => (jget d p.1).isNone)) k
      = if (jget d k).isNone then jget r k else none := by
  induction r with
  | nil => simp [jget_nil]
  | cons a r ih =>
    by_cases h : a.1 = k
    · subst h
      by_cases hd : (jget d a.1).isNone
      · simp [List.filter_cons, jget_cons, hd, ih]
      · simp [List.filter_cons, jget_cons, hd, ih]
    · by_cases hp : (jget d a.1).isNone <;>
        simp [List.filter_cons, jget_cons, h, hp, ih]

/-- What Object.assign with fresh target produces, lookup-wise: the second
source wins at every key it has, the first source fills the rest. -/
theorem jget_objAssign (d r : Jobj) (k : String) :
    jget (objAssign d r) k = match jget r k with
      | some v => some v
      | none => jget d k := by
  rw [objAssign, jget_append, jget_map_merge, jget_filter_isNone]
  cases hr : jget r k <;> cases hd : jget d k <;> simp [hr, hd]

theorem jget_setMap (s : Jobj) (k v k' : String) :
    jget (s.map (fun p => if p.1 = k then (p.1, v) else p)) k'
      = if k' = k then (jget s k').map (fun _ => v) else jget s k' := by
  induction s with
  | nil => by_cases h : k' = k <;> simp [jget_nil, h]
  | cons a s ih =>
    by_cases hak : a.1 = k
    · subst hak
      by_cases hak' : a.1 = k'
      · subst hak'
        simp [jget_cons]
      · have h2 : ¬ k' = a.1 := fun h => hak' h.symm
        simp [jget_cons, hak', h2, ih]
    · by_cases hak' : a.1 = k'
      · subst hak'
        have h2 : ¬ a.1 = k := hak
        simp [jget_cons, h2, fun h => hak (h : a.1 = k)]
      · simp [jget_cons, hak, hak', ih]

/-- What JavaScript property assignment produces, lookup-wise: the assigned
key now reads the assigned value, every other key is untouched. -/
theorem jget_jset (s : Jobj) (k v k' : String) :
    jget (jset s k v) k' = if k' = k then some v else jget s k' := by
  rw [jset]
  by_cases hs : (jget s k).isSome
  · rw [if_pos hs, jget_setMap]
    by_cases hk : k' = k
    · subst hk
      obtain ⟨w, hw⟩ := Option.isSome_iff_exists.mp hs
      simp [hw]
    · simp [hk]
  · rw [if_neg hs, jget_append]
    by_cases hk : k' = k
    · subst hk
      have h0 : jget s k' = none := Option.not_isSome_iff_eq_none.mp hs
      simp [h0, jget_cons, jget_nil]
    · have hk2 : ¬ k = k' := fun h => hk h.symm
      cases h : jget s k' <;> simp [h, jget_cons, jget_nil, hk2, hk]

/-! State-level helper lemmas. -/

theorem jget_loadSettings (σ : SysState) (k : String) :
    jget (loadSettings σ).settings k
      = match jget (σ.storage.getD []) k with
        | some v => some v
        | none => jget σ.defaults k := by
  rw [loadSettings]
  exact jget_objAssign σ.defaults (σ.storage.getD []) k

theorem jget_default_fieldKey (f : SField) :
    jget DEFAULT_SETTINGS (fieldKey f) = some "" := by
  cases f <;> rfl

theorem fieldKey_inj (f g : SField) : fieldKey f = fieldKey g ↔ f = g := by
  cases f <;> cases g <;> decide

theorem load_isSome (σ : SysState) (f : SField)
    (hd : σ.defaults = DEFAULT_SETTINGS) :
    (jget (loadSettings σ).settings (fieldKey f)).isSome := by
  rw [jget_loadSettings, hd]
  cases h : jget (σ.storage.getD []) (fieldKey f) <;>
    simp [h, jget_default_fieldKey]

theorem foldl_lastWritten (us : List (SField × String)) (f : SField)
    (a : Option String) :
    us.foldl (fun acc u => if u.1 = f then some u.2 else acc) a
      = match lastWritten us f with
        | some v => some v
        | none => a := by
  induction us generalizing a with
  | nil => simp [lastWritten]
  | cons u us ih =>
    rw [lastWritten, List.foldl_cons, List.foldl_cons, ih, ih]
    cases h : us.foldl (fun acc u => if u.1 = f then some u.2 else acc) none <;>
      by_cases hf : u.1 = f <;> simp [lastWritten, h, hf]

theorem applyUpdates_cons (u : SField × String) (us : List (SField × String))
    (σ : SysState) :
    applyUpdates (u :: us) σ = applyUpdates us (setField u.1 u.2 σ) := rfl

theorem applyUpdates_jget (us : List (SField × String)) (σ : SysState)
    (f : SField) :
    jget (applyUpdates us σ).settings (fieldKey f)
      = match lastWritten us f with
        | some v => some v
        | none => jget σ.settings (fieldKey f) := by
  induction us generalizing σ with
  | nil => simp [applyUpdates, lastWritten]
  | cons u us ih =>
    rw [applyUpdates_cons, ih]
    have hlw : lastWritten (u :: us) f
        = match (if u.1 = f then some u.2 else none) with
          | some v =>
            match lastWritten us f with
            | some w => some w
            | none => some v
          | none => lastWritten us f := by
      rw [lastWritten, List.foldl_cons, foldl_lastWritten]
      by_cases hf : u.1 = f <;>
        cases h : lastWritten us f <;> simp [hf, h]
    rw [hlw]
    have hset : jget (setField u.1 u.2 σ).settings (fieldKey f)
        = if fieldKey f = fieldKey u.1 then some u.2
          else jget σ.settings (fieldKey f) := jget_jset _ _ _ _
    by_cases hf : u.1 = f
    · subst hf
      cases h : lastWritten us u.1 <;> simp [h, hset]
    · have hne : ¬ fieldKey f = fieldKey u.1 :=
        fun h => hf ((fieldKey_inj u.1 f).mp h.symm)
      cases h : lastWritten us f <;> simp [h, hset, hne, hf]

theorem applyUpdates_isSome (us : List (SField × String)) (σ : SysState)
    (f : SField) (h : (jget σ.settings (fieldKey f)).isSome) :
    (jget (applyUpdates us σ).settings (fieldKey f)).isSome := by
  rw [applyUpdates_jget]
  cases hl : lastWritten us f
  · simpa using h
  · simp

theorem applyUpdates_storage (us : List (SField × String)) (σ : SysState) :
    (applyUpdates us σ).storage = σ.storage := by
  induction us generalizing σ with
  | nil => rfl
  | cons u us ih => rw [applyUpdates_cons]; exact ih _

theorem applyUpdates_defaults (us : List (SField × String)) (σ : SysState) :
    (applyUpdates us σ).defaults = σ.defaults := by
  induction us generalizing σ with
  | nil => rfl
  | cons u us ih => rw [applyUpdates_cons]; exact ih _

theorem runOps_defaults (ops : List Op) (σ : SysState) :
    (runOps ops σ).defaults = σ.defaults := by
  induction ops generalizing σ with
  | nil => rfl
  | cons o ops ih =>
    rw [runOps, List.foldl_cons]
    have h1 : (runOps ops (stepOp σ o)).defaults = (stepOp σ o).defaults := ih _
    rw [runOps] at h1
    rw [h1]
    cases o <;> rfl

/-! The claims. -/

/-- C1: for every raw persisted mapping R returned by the storage backend
(including the empty mapping and a mapping with only one of the two fields),
loadSettings produces a settings record in which every declared field missing
in R equals the default (the empty string) and every declared field present
in R equals R's value for that field. -/
theorem load_merges_defaults (R s0 : Jobj) (f : SField) :
    jget (loadSettings ⟨DEFAULT_SETTINGS, s0, some R⟩).settings (fieldKey f)
      = match jget R (fieldKey f) with
        | some v => some v
        | none => some "" := by
  rw [jget_loadSettings]
  cases h : jget R (fieldKey f) <;> simp [h, jget_default_fieldKey]

/-- C2: round-trip law. For any in-memory settings record produced by a load
followed by any sequence of field updates, persisting it and loading on a
fresh instance over the storage the persist wrote yields a record with the
same value at every declared field. -/
theorem persist_load_roundtrip (st : Option Jobj) (s0 s1 : Jobj)
    (us : List (SField × String)) (f : SField) :
    jget (loadSettings ⟨DEFAULT_SETTINGS, s1,
        (saveSettings none
          (applyUpdates us (loadSettings ⟨DEFAULT_SETTINGS, s0, st⟩))).1.storage⟩).settings
      (fieldKey f)
      = jget (applyUpdates us (loadSettings ⟨DEFAULT_SETTINGS, s0, st⟩)).settings
          (fieldKey f) := by
  have hpres : (jget (applyUpdates us
      (loadSettings ⟨DEFAULT_SETTINGS, s0, st⟩)).settings (fieldKey f)).isSome :=
    applyUpdates_isSome us _ f (load_isSome _ f rfl)
  obtain ⟨v, hv⟩ := Option.isSome_iff_exists.mp hpres
  rw [jget_loadSettings]
  have hst : ((saveSettings none
      (applyUpdates us (loadSettings ⟨DEFAULT_SETTINGS, s0, st⟩))).1.storage.getD [])
      = (applyUpdates us (loadSettings ⟨DEFAULT_SETTINGS, s0, st⟩)).settings := rfl
  rw [hst, hv]

/-- C3 counterexample: a raw persisted mapping with the extra key "color" is
not dropped by loadSettings; the extra key is readable on the resulting
settings object and is written back to storage by the next persist. -/
theorem load_ignores_extras_cex :
    jget (loadSettings
        ⟨DEFAULT_SETTINGS, [], some [("color", "green")]⟩).settings "color"
      = some "green"
    ∧ (saveSettings none (loadSettings
        ⟨DEFAULT_SETTINGS, [], some [("color", "green")]⟩)).1.storage
      = some [("apiToken", ""), ("userId", ""), ("color", "green")] :=
  ⟨rfl, rfl⟩

/-- C3 amended: loadSettings retains unknown/extra persisted fields rather
than ignoring them — Object.assign copies every key of the raw mapping onto
the settings object — and a subsequent persist writes them back to storage
unchanged; only the two declared fields are exposed through the typed
record. -/
theorem load_retains_extras (R s0 : Jobj) (k : String)
    (h1 : k ≠ "apiToken") (h2 : k ≠ "userId") :
    jget (loadSettings ⟨DEFAULT_SETTINGS, s0, some R⟩).settings k = jget R k
    ∧ jget ((saveSettings none
        (loadSettings ⟨DEFAULT_SETTINGS, s0, some R⟩)).1.storage.getD []) k
      = jget R k := by
  have hA : ¬ ("apiToken" = k) := fun h => h1 h.symm
  have hB : ¬ ("userId" = k) := fun h => h2 h.symm
  have hD : jget DEFAULT_SETTINGS k = none := by
    rw [DEFAULT_SETTINGS]
    simp [jget_cons, jget_nil, hA, hB]
  have hload : jget (loadSettings ⟨DEFAULT_SETTINGS, s0, some R⟩).settings k
      = jget R k := by
    rw [jget_loadSettings]
    cases h : jget R k <;> simp [h, hD]
  exact ⟨hload, hload⟩

/-- C3 amended, witness at the concrete extra key "color". -/
theorem load_retains_extras_witness :
    ("color" ≠ "apiToken" ∧ "color" ≠ "userId")
    ∧ (jget (loadSettings
          ⟨DEFAULT_SETTINGS, [], some [("color", "green")]⟩).settings "color"
        = jget [("color", "green")] "color"
      ∧ jget ((saveSettings none (loadSettings
          ⟨DEFAULT_SETTINGS, [], some [("color", "green")]⟩)).1.storage.getD [])
          "color"
        = jget [("color", "green")] "color") :=
  ⟨⟨by decide, by decide⟩,
    load_retains_extras [("color", "green")] [] "color"
      (by decide) (by decide)⟩

/-- C4: after any sequence of in-memory field updates, each declared field
reads the last value written to it (or its prior value when the sequence
never wrote it), and no update touches the persisted storage — persistence
happens only through the separate saveSettings call. -/
theorem updates_last_write_wins (us : List (SField × String)) (σ : SysState)
    (f : SField) :
    (jget (applyUpdates us σ).settings (fieldKey f)
      = match lastWritten us f with
        | some v => some v
        | none => jget σ.settings (fieldKey f))
    ∧ (applyUpdates us σ).storage = σ.storage :=
  ⟨applyUpdates_jget us σ f, applyUpdates_storage us σ⟩

/-- C5: when the storage backend fails during the persist of an onChange
edit, the backend's failure is returned to the caller unchanged as a
StorageFailure, the in-memory record still holds the freshly assigned value,
and the persisted storage is left as it was. -/
theorem persist_failure_propagates (e : StorageFailure) (f : SField)
    (v : String) (σ : SysState) :
    (onChange (some e) f v σ).2 = Except.error e
    ∧ jget (onChange (some e) f v σ).1.settings (fieldKey f) = some v
    ∧ (onChange (some e) f v σ).1.settings = (setField f v σ).settings
    ∧ (onChange (some e) f v σ).1.storage = σ.storage := by
  refine ⟨rfl, ?_, rfl, rfl⟩
  have h : (onChange (some e) f v σ).1.settings
      = jset σ.settings (fieldKey f) v := rfl
  rw [h, jget_jset]
  simp

/-- C6: loadSettings never fails when no prior persisted data exists — a
backend returning nothing at all and a backend returning the empty mapping
are both valid states, and both produce exactly the default record with both
fields the empty string. (In the embedding loadSettings is a total
function, so the absence of a failure path is definitional.) -/
theorem load_no_prior_data_defaults (s0 : Jobj) :
    (loadSettings ⟨DEFAULT_SETTINGS, s0, none⟩).settings = DEFAULT_SETTINGS
    ∧ (loadSettings ⟨DEFAULT_SETTINGS, s0, some []⟩).settings = DEFAULT_SETTINGS
    ∧ settingsView (loadSettings ⟨DEFAULT_SETTINGS, s0, none⟩).settings
      = ⟨"", ""⟩ :=
  ⟨rfl, rfl, rfl⟩

/-- C7: loadSettings is idempotent — it does not modify the backing storage,
so loading a second time over the unchanged storage computes the same
settings record. -/
theorem load_idempotent (σ : SysState) :
    (loadSettings (loadSettings σ)).settings = (loadSettings σ).settings
    ∧ (loadSettings σ).storage = σ.storage :=
  ⟨rfl, rfl⟩

/-- C8: in onload the settings load completes before the settings tab is
registered and before the ribbon action is registered, and at registration
time both declared fields of the settings record are populated. -/
theorem onload_load_before_registration (s0 : Jobj) (st : Option Jobj) :
    ((onload ⟨DEFAULT_SETTINGS, s0, st⟩).2.indexOf Event.loadCompleted
      < (onload ⟨DEFAULT_SETTINGS, s0, st⟩).2.indexOf Event.settingTabRegistered)
    ∧ ((onload ⟨DEFAULT_SETTINGS, s0, st⟩).2.indexOf Event.loadCompleted
      < (onload ⟨DEFAULT_SETTINGS, s0, st⟩).2.indexOf Event.ribbonRegistered)
    ∧ (jget (onload ⟨DEFAULT_SETTINGS, s0, st⟩).1.settings "apiToken").isSome
    ∧ (jget (onload ⟨DEFAULT_SETTINGS, s0, st⟩).1.settings "userId").isSome := by
  have htr : (onload ⟨DEFAULT_SETTINGS, s0, st⟩).2
      = [Event.loadCompleted, Event.settingTabRegistered,
         Event.ribbonRegistered] := rfl
  refine ⟨?_, ?_, ?_, ?_⟩
  · rw [htr]; decide
  · rw [htr]; decide
  · exact load_isSome ⟨DEFAULT_SETTINGS, s0, st⟩ SField.apiToken rfl
  · exact load_isSome ⟨DEFAULT_SETTINGS, s0, st⟩ SField.userId rfl

/-- C9: a ribbon click emits exactly one user-visible notification (the
literal syncing message), mutates no state — settings, storage and defaults
are all returned unchanged — and performs no other work. -/
theorem ribbon_click_notice_only (σ : SysState) :
    (ribbonClick σ).1 = σ
    ∧ (ribbonClick σ).2 = ["Syncing with Habitica..."]
    ∧ (ribbonClick σ).2.length = 1 :=
  ⟨rfl, rfl, rfl⟩

/-- C10: the DEFAULT_SETTINGS object is never mutated — loadSettings merges
into a fresh target and edits act on the separately owned settings object —
so across every session of load/edit/persist/click operations the defaults
component of the state is invariant, and from the real initial state it
stays exactly the default record. -/
theorem default_settings_invariant (ops : List Op) (σ : SysState)
    (s0 : Jobj) (st : Option Jobj) :
    (runOps ops σ).defaults = σ.defaults
    ∧ (runOps ops ⟨DEFAULT_SETTINGS, s0, st⟩).defaults = DEFAULT_SETTINGS :=
  ⟨runOps_defaults ops σ, runOps_defaults ops ⟨DEFAULT_SETTINGS, s0, st⟩⟩

end HabiticaMd
